import Mathlib

/-!
Verification of the CTRL-Z catalog backend (`src/main.py`).

The embedding models the module's pure logic plus the store interactions it
performs through pymongo:

* a raw store document (`Doc`) is the open BSON document shape the service
  reads: `name`/`description`/`price`/`category` are the fields the
  serializer requires, the four defaultable fields (`sizes`, `images`,
  `stock`, `tags`) are `Option`s so that an absent field is representable;
* the backing collection is `Store := Option (List Doc)`: `none` models the
  `database` module being unimportable / `db is None` (store unavailable),
  `some docs` an available collection holding `docs`;
* BSON ObjectIds are modelled as naturals.  `ObjectId()` (fresh generation)
  is modelled by threading a counter `g : Nat`: the bson driver's ObjectId
  contains a per-process counter incremented on every generation, so two
  generations within a process yield distinct values — the counter model
  captures exactly that.  `str(oid)` is injective on ObjectIds, so the view
  carries the ObjectId itself as its `id`;
* MongoDB `$regex` with `$options: "i"` is PCRE matching.  The service
  interpolates the raw user strings into patterns, so the model implements
  the matching semantics for the star-free pattern class actually needed
  (literal characters and the `.` metacharacter, with optional `^...$`
  anchoring as built by the code); patterns outside this class make the
  model return `none` rather than guess;
* `price` is a Python float never computed with; it is carried as `Rat`;
* exceptions are `Except`; `try/except Exception` blocks are modelled by
  matching on the `Except` result, which is what makes the `raise
  HTTPException(404)` *inside* the `try` of `get_product` observable.
-/

namespace CtrlZ

/-- Decidable equality for `Except`, used to evaluate the model's fallible
results on concrete inputs. -/
instance {ε α : Type} [DecidableEq ε] [DecidableEq α] : DecidableEq (Except ε α)
  | .ok a, .ok b =>
    if h : a = b then .isTrue (by rw [h]) else .isFalse (by simp [h])
  | .ok _, .error _ => .isFalse (by simp)
  | .error _, .ok _ => .isFalse (by simp)
  | .error a, .error b =>
    if h : a = b then .isTrue (by rw [h]) else .isFalse (by simp [h])

/-- Lowercase a character list (model of the effect of PCRE option `i`,
applied pointwise to pattern literals and subject). -/
def lowerL (s : List Char) : List Char := s.map Char.toLower

/-- Characters that are PCRE metacharacters outside character classes.
A pattern containing any of these (other than `.`) is outside the model's
supported class. -/
def isMeta (c : Char) : Bool :=
  ['\\', '^', '$', '.', '|', '?', '*', '+', '(', ')', '[', ']', '\x7b', '\x7d'].contains c

/-- One atom of a star-free regex: a literal character or the `.` wildcard. -/
inductive Atom where
  | lit (c : Char)
  | dot
  deriving DecidableEq, Repr

/-- Does one atom match one character?  PCRE `.` does not match a newline. -/
def atomMatches : Atom → Char → Bool
  | .lit c, d => c == d
  | .dot, d => d != '\n'

/-- A sequence of atoms matches a string exactly (same length, pointwise). -/
def atomsMatch : List Atom → List Char → Bool
  | [], [] => true
  | [], _ :: _ => false
  | _ :: _, [] => false
  | a :: as, c :: cs => atomMatches a c && atomsMatch as cs

/-- Unanchored regex search: the atom sequence matches at some position. -/
def atomsSearch (as : List Atom) (s : List Char) : Bool :=
  s.tails.any fun t => atomsMatch as (t.take as.length)

/-- Lowercase the literal atoms (caseless matching of the pattern side). -/
def lowerAtoms (as : List Atom) : List Atom :=
  as.map fun a => match a with
    | .lit c => .lit c.toLower
    | .dot => .dot

/-- Compile a raw pattern string into atoms; `none` when the pattern uses a
metacharacter other than `.` (outside the modelled class). -/
def compilePat : List Char → Option (List Atom)
  | [] => some []
  | c :: cs =>
    if c = '.' then (compilePat cs).map (Atom.dot :: ·)
    else if isMeta c then none
    else (compilePat cs).map (Atom.lit c :: ·)

/-- MongoDB `\x7b"$regex": pat, "$options": "i"\x7d` on a string field:
unanchored caseless search of `pat` in `s`.  `none` when `pat` is outside
the modelled pattern class. -/
def mongoRegexSearchCI (pat s : List Char) : Option Bool :=
  (compilePat pat).map fun as => atomsSearch (lowerAtoms as) (lowerL s)

/-- MongoDB `\x7b"$regex": "^" + mid + "$", "$options": "i"\x7d`: the
anchors force the whole field to match `mid`, caselessly.  `none` when
`mid` is outside the modelled pattern class. -/
def mongoRegexExactCI (mid s : List Char) : Option Bool :=
  (compilePat mid).map fun as => atomsMatch (lowerAtoms as) (lowerL s)

/-- Hexadecimal digit value, as accepted by `bson.ObjectId` (both cases). -/
def hexVal (c : Char) : Option Nat :=
  if 48 ≤ c.toNat ∧ c.toNat ≤ 57 then some (c.toNat - 48)
  else if 97 ≤ c.toNat ∧ c.toNat ≤ 102 then some (c.toNat - 87)
  else if 65 ≤ c.toNat ∧ c.toNat ≤ 70 then some (c.toNat - 55)
  else none

/-- Parse a big-endian hex character list. -/
def hexListToNat : List Char → Option Nat
  | [] => some 0
  | c :: cs => do
    let v ← hexVal c
    let r ← hexListToNat cs
    pure (v * 16 ^ cs.length + r)

/-- Model of the `bson.ObjectId(str)` constructor on a string argument: it
accepts exactly 24 hex characters and otherwise raises `InvalidId`. -/
def objectIdOfString (s : String) : Option Nat :=
  if s.data.length = 24 then hexListToNat s.data else none

/-- A raw document of the `product` collection as the service reads it:
the four defaultable fields may be absent (`doc.get` with a default). -/
structure Doc where
  oid : Nat
  name : String
  description : String
  price : Rat
  category : String
  subcategory : Option String
  sizes : Option (List String)
  images : Option (List String)
  stock : Option Int
  tags : Option (List String)
  deriving DecidableEq, Repr

/-- The externally visible product view (`ProductOut`).  `id` carries the
ObjectId itself (its string rendering is injective). -/
structure ProductOut where
  id : Nat
  name : String
  description : String
  price : Rat
  category : String
  subcategory : Option String
  sizes : List String
  images : List String
  stock : Int
  tags : List String
  deriving DecidableEq, Repr

/-- Embedding of `serialize_product` (src/main.py lines 47–59): each
defaultable field is read with `doc.get(key, default)`; note the source's
default for a missing `sizes` is the empty list `[]`. -/
def serialize_product (doc : Doc) : ProductOut :=
  { id := doc.oid
    name := doc.name
    description := doc.description
    price := doc.price
    category := doc.category
    subcategory := doc.subcategory
    sizes := doc.sizes.getD []
    images := doc.images.getD []
    stock := doc.stock.getD 0
    tags := doc.tags.getD [] }

/-- The six-value size run declared as `ProductModel`'s default for `sizes`
(src/main.py line 29). -/
def sixSizes : List String := ["XS", "S", "M", "L", "XL", "XXL"]

/-- The backing collection: `none` = store unavailable, `some docs` = an
available collection currently holding `docs`. -/
abbrev Store : Type := Option (List Doc)

/-- Embedding of `database_available` (lines 62–67). -/
def database_available (st : Store) : Bool :=
  match st with
  | none => false
  | some _ => true

/-- Embedding of `db["product"].count_documents(\x7b\x7d)` on an available
collection. -/
def countAll (docs : List Doc) : Nat := docs.length

/-- The three seed documents (src/main.py lines 77–123).  `insert_many`
assigns each a fresh ObjectId; with the counter model they get `g`,
`g + 1`, `g + 2`. -/
def seedDocs (g : Nat) : List Doc :=
  [ { oid := g
      name := "CTRL-Z Oversized Tee — Neon Grid"
      description := "Heavyweight cotton tee with neon cyan glitch print."
      price := (49 : Rat)
      category := "Unisex"
      subcategory := some "Tees"
      sizes := some ["XS", "S", "M", "L", "XL", "XXL"]
      images := some
        [ "https://images.unsplash.com/photo-1520975661595-6453be3f7070?q=80&w=1200&auto=format&fit=crop",
          "https://images.unsplash.com/photo-1548883354-94bcfe321cce?q=80&w=1200&auto=format&fit=crop",
          "https://images.unsplash.com/photo-1520974735194-6c0a6b4a37d1?q=80&w=1200&auto=format&fit=crop" ]
      stock := some 120
      tags := some ["glitch", "oversized", "core"] },
    { oid := g + 1
      name := "CTRL-Z Tech Cargo — Midnight"
      description := "Water-resistant tech cargos with magnetic closures."
      price := (89 : Rat)
      category := "Men"
      subcategory := some "Cargo Pants"
      sizes := some ["S", "M", "L", "XL"]
      images := some
        [ "https://images.unsplash.com/photo-1543087903-1ac2ec7aa8c5?q=80&w=1200&auto=format&fit=crop",
          "https://images.unsplash.com/photo-1544025162-d76694265947?q=80&w=1200&auto=format&fit=crop",
          "https://images.unsplash.com/photo-1519741497674-611481863552?q=80&w=1200&auto=format&fit=crop" ]
      stock := some 60
      tags := some ["techwear", "cargo"] },
    { oid := g + 2
      name := "CTRL-Z Cropped Hoodie — Crimson Pulse"
      description := "Fleece cropped hoodie with crimson pulse embroidery."
      price := (79 : Rat)
      category := "Women"
      subcategory := some "Hoodies"
      sizes := some ["XS", "S", "M", "L"]
      images := some
        [ "https://images.unsplash.com/photo-1517649763962-0c623066013b?q=80&w=1200&auto=format&fit=crop",
          "https://images.unsplash.com/photo-1488188840666-e2308741a62f?q=80&w=1200&auto=format&fit=crop",
          "https://images.unsplash.com/photo-1520975661595-6453be3f7070?q=80&w=1200&auto=format&fit=crop" ]
      stock := some 40
      tags := some ["cropped", "hoodie"] } ]

/-- The one failure the model distinguishes inside `ensure_seed_data`'s
`try` block: the seed `insert_many` failing (network blip, write error).
`insertOk` is the environment's choice of whether the insert succeeds. -/
inductive SeedErr where
  | insertFailed
  deriving DecidableEq, Repr

/-- The body of `ensure_seed_data`'s `try` block (lines 72–124): return
early when the db handle is `None`, otherwise seed iff the collection is
empty; the `insert_many` call may fail.  Returns the next fresh-id counter
and the new store state. -/
def ensure_seed_attempt (insertOk : Bool) (g : Nat) (st : Store) :
    Except SeedErr (Nat × Store) :=
  match st with
  | none => .ok (g, none)
  | some docs =>
    if countAll docs = 0 then
      if insertOk then .ok (g + 3, some (docs ++ seedDocs g))
      else .error .insertFailed
    else .ok (g, some docs)

/-- Embedding of `ensure_seed_data` (lines 70–126): the whole body is
wrapped in `try: ... except Exception: pass`, so a failed attempt leaves
the store unchanged and returns normally. -/
def ensure_seed_data (insertOk : Bool) (g : Nat) (st : Store) : Nat × Store :=
  match ensure_seed_attempt insertOk g st with
  | .ok r => r
  | .error _ => (g, st)

/-- Sequence a fallible Boolean predicate along a list with MongoDB's
array semantics: an array field matches a `$regex` condition iff some
element matches. -/
def anyM (p : α → Option Bool) : List α → Option Bool
  | [] => some false
  | x :: xs => do
    let b ← p x
    let r ← anyM p xs
    pure (b || r)

/-- The `category` condition of the filter built at line 183:
`\x7b"$regex": f"^\x7bcategory\x7d$", "$options": "i"\x7d` against the
stored `category` field. -/
def categoryCond (cat : String) (d : Doc) : Option Bool :=
  mongoRegexExactCI cat.data d.category.data

/-- The `$or` condition of the filter built at lines 185–189: the query
`q` searched case-insensitively in `name`, `description`, or any element
of `tags` (a missing `tags` field matches nothing). -/
def queryCond (q : String) (d : Doc) : Option Bool := do
  let n ← mongoRegexSearchCI q.data d.name.data
  let de ← mongoRegexSearchCI q.data d.description.data
  let t ← match d.tags with
    | none => pure false
    | some ts => anyM (fun s => mongoRegexSearchCI q.data s.data) ts
  pure (n || de || t)

/-- Does document `d` match the filter object built at lines 181–189?
Conditions of a MongoDB filter document conjoin; a condition whose key is
absent from the filter (argument `None` or `""`, by truthiness) is `true`.
`none` when a pattern falls outside the modelled regex class. -/
def filterMatches (category q : Option String) (d : Doc) : Option Bool := do
  let c ← match category with
    | some cat => if cat.isEmpty then pure true else categoryCond cat d
    | none => pure true
  let h ← match q with
    | some qs => if qs.isEmpty then pure true else queryCond qs d
    | none => pure true
  pure (c && h)

/-- Embedding of `db["product"].find(filter_obj)`: the documents of the
collection that match the filter, in collection order. -/
def findFiltered (category q : Option String) : List Doc → Option (List Doc)
  | [] => some []
  | d :: ds => do
    let b ← filterMatches category q d
    let rest ← findFiltered category q ds
    pure (if b then d :: rest else rest)

/-- The static fallback document of `list_products` (lines 193–210); its
`_id` is a freshly generated `ObjectId()`, modelled by the counter `g`. -/
def fallbackDoc (g : Nat) : Doc :=
  { oid := g
    name := "CTRL-Z Oversized Tee — Neon Grid"
    description := "Heavyweight cotton tee with neon cyan glitch print."
    price := (49 : Rat)
    category := "Unisex"
    subcategory := some "Tees"
    sizes := some ["XS", "S", "M", "L", "XL", "XXL"]
    images := some
      [ "https://images.unsplash.com/photo-1520975661595-6453be3f7070?q=80&w=1200&auto=format&fit=crop",
        "https://images.unsplash.com/photo-1548883354-94bcfe321cce?q=80&w=1200&auto=format&fit=crop",
        "https://images.unsplash.com/photo-1520974735194-6c0a6b4a37d1?q=80&w=1200&auto=format&fit=crop" ]
    stock := some 120
    tags := some ["glitch", "oversized", "core"] }

/-- Embedding of `list_products` (lines 170–211).  Inputs beyond the two
query parameters: `insertOk` (does a seed insert succeed, see
`ensure_seed_attempt`), the fresh-ObjectId counter `g`, and the store
state.  Returns the next counter, the new store state, and the response
body; `none` when a filter pattern falls outside the modelled regex
class. -/
def list_products (category q : Option String) (insertOk : Bool) (g : Nat)
    (st : Store) : Option (Nat × Store × List ProductOut) :=
  let p := ensure_seed_data insertOk g st
  match p.2 with
  | some docs =>
    (findFiltered category q docs).map fun kept =>
      (p.1, some docs, (kept.take 48).map serialize_product)
  | none => some (p.1 + 1, none, [serialize_product (fallbackDoc p.1)])

/-- Embedding of `db["product"].find_one(\x7b"_id": oid\x7d)`: the first
document of the collection whose `_id` equals `oid`. -/
def find_one (docs : List Doc) (oid : Nat) : Option Doc :=
  docs.find? fun d => d.oid == oid

/-- An exception raised inside `get_product`'s `try` block: either the
`bson.errors.InvalidId` from `ObjectId(product_id)`, or the
`HTTPException` raised at line 221 — `HTTPException` subclasses
`Exception`, so it too is caught by the handler at line 223. -/
inductive PyExc where
  | invalidId
  | httpExc (code : Nat) (detail : String)
  deriving DecidableEq, Repr

/-- The body of `get_product`'s `try` block (lines 218–222): parse the id,
look the document up, raise 404 when absent, serialize when found. -/
def get_product_try (product_id : String) (docs : List Doc) :
    Except PyExc ProductOut :=
  match objectIdOfString product_id with
  | none => .error .invalidId
  | some oid =>
    match find_one docs oid with
    | none => .error (.httpExc 404 "Product not found")
    | some d => .ok (serialize_product d)

/-- The static fallback view of `get_product` (lines 227–242); its `id` is
a freshly generated `ObjectId()`, modelled by the counter `g`. -/
def getProductFallback (g : Nat) : ProductOut :=
  { id := g
    name := "CTRL-Z Oversized Tee — Neon Grid"
    description := "Heavyweight cotton tee with neon cyan glitch print."
    price := (49 : Rat)
    category := "Unisex"
    subcategory := some "Tees"
    sizes := ["XS", "S", "M", "L", "XL", "XXL"]
    images :=
      [ "https://images.unsplash.com/photo-1520975661595-6453be3f7070?q=80&w=1200&auto=format&fit=crop",
        "https://images.unsplash.com/photo-1548883354-94bcfe321cce?q=80&w=1200&auto=format&fit=crop",
        "https://images.unsplash.com/photo-1520974735194-6c0a6b4a37d1?q=80&w=1200&auto=format&fit=crop" ]
    stock := 120
    tags := ["glitch", "oversized", "core"] }

/-- Embedding of `get_product` (lines 214–242).  On an available store the
`try` body runs and *any* exception it raises — the malformed-id
`InvalidId` but also the 404 `HTTPException` raised inside the block — is
replaced by `HTTPException(400, "Invalid product id")`.  On an unavailable
store the static fallback is returned, ignoring `product_id`.  The error
value is the `(status_code, detail)` of the raised `HTTPException`. -/
def get_product (product_id : String) (g : Nat) (st : Store) :
    (Nat × Except (Nat × String) ProductOut) :=
  match st with
  | some docs =>
    (g,
      match get_product_try product_id docs with
      | .ok v => .ok v
      | .error _ => .error (400, "Invalid product id"))
  | none => (g + 1, .ok (getProductFallback g))

/-- All fields of a view except `id`, for stating that two degraded-mode
responses agree up to the freshly generated identifier. -/
def sansId (o : ProductOut) :
    String × String × Rat × String × Option String ×
      List String × List String × Int × List String :=
  (o.name, o.description, o.price, o.category, o.subcategory,
    o.sizes, o.images, o.stock, o.tags)

/-- A well-formed `category` filter value: non-empty (the route treats an
empty string like an absent one, by Python truthiness) and free of PCRE
metacharacters (the value is interpolated unescaped into the `$regex`
pattern, so a metacharacter changes the matching semantics). -/
abbrev wellFormedCategory (s : String) : Prop :=
  s.data ≠ [] ∧ ∀ c ∈ s.data, isMeta c = false

/-- A concrete store document used to evaluate the theorems: ObjectId 5,
name `"ab"`, description `"cd"`, category `"Men"`, an empty tag list, and
the three defaultable scalar fields absent. -/
def exDoc : Doc :=
  { oid := 5
    name := "ab"
    description := "cd"
    price := (1 : Rat)
    category := "Men"
    subcategory := none
    sizes := none
    images := none
    stock := none
    tags := some [] }

/-- A raw record lacking all four defaultable fields (`sizes`, `images`,
`stock`, `tags`). -/
def bareDoc : Doc :=
  { oid := 9
    name := "n"
    description := "d"
    price := (2 : Rat)
    category := "Men"
    subcategory := none
    sizes := none
    images := none
    stock := none
    tags := none }

/-! ### Matcher lemmas -/

/-- A metacharacter-free pattern compiles to its literal atoms. -/
theorem compilePat_noMeta (p : List Char) (h : ∀ c ∈ p, isMeta c = false) :
    compilePat p = some (p.map Atom.lit) := by
  induction p with
  | nil => rfl
  | cons c cs ih =>
    have hc : isMeta c = false := h c (List.mem_cons_self c cs)
    have hdot : c ≠ '.' := by
      intro e
      rw [e] at hc
      exact absurd hc (by decide)
    have hcs : ∀ x ∈ cs, isMeta x = false := fun x hx => h x (List.mem_cons_of_mem c hx)
    simp [compilePat, hdot, hc, ih hcs]

/-- Lowercasing the atoms of a literal pattern is compiling the lowered
pattern. -/
theorem lowerAtoms_lits (p : List Char) :
    lowerAtoms (p.map Atom.lit) = (lowerL p).map Atom.lit := by
  simp only [lowerAtoms, lowerL, List.map_map]
  rfl

/-- A sequence of literal atoms matches exactly its own character list. -/
theorem atomsMatch_lits (n s : List Char) :
    atomsMatch (n.map Atom.lit) s = true ↔ s = n := by
  induction n generalizing s with
  | nil => cases s <;> simp [atomsMatch]
  | cons x xs ih =>
    cases s with
    | nil => simp [atomsMatch]
    | cons c cs =>
      simp only [List.map_cons, atomsMatch, atomMatches, Bool.and_eq_true, beq_iff_eq, ih,
        List.cons.injEq]
      exact ⟨fun ⟨h1, h2⟩ => ⟨h1.symm, h2⟩, fun ⟨h1, h2⟩ => ⟨h1.symm, h2⟩⟩

/-- Unanchored search of a literal pattern is the infix relation. -/
theorem atomsSearch_lits (n s : List Char) :
    atomsSearch (n.map Atom.lit) s = true ↔ n <:+: s := by
  unfold atomsSearch
  rw [List.any_eq_true]
  constructor
  · rintro ⟨t, ht, hm⟩
    rw [List.mem_tails] at ht
    rw [List.length_map, atomsMatch_lits] at hm
    exact List.infix_iff_prefix_suffix.mpr ⟨t, hm ▸ List.take_prefix n.length t, ht⟩
  · intro h
    obtain ⟨t, hp, hs⟩ := List.infix_iff_prefix_suffix.mp h
    refine ⟨t, (List.mem_tails t s).mpr hs, ?_⟩
    rw [List.length_map, atomsMatch_lits]
    exact (List.prefix_iff_eq_take.mp hp).symm

/-- For a metacharacter-free pattern, a successful caseless `$regex`
search means the lowered pattern is an infix of the lowered subject. -/
theorem mongoSearchCI_true (p s : List Char) (h : ∀ c ∈ p, isMeta c = false)
    (hm : mongoRegexSearchCI p s = some true) : lowerL p <:+: lowerL s := by
  rw [mongoRegexSearchCI, compilePat_noMeta p h, Option.map_some'] at hm
  rw [lowerAtoms_lits] at hm
  exact (atomsSearch_lits (lowerL p) (lowerL s)).mp (Option.some.inj hm)

/-- For a metacharacter-free pattern, a successful caseless anchored
`$regex` match means the lowered subject equals the lowered pattern. -/
theorem mongoExactCI_true (p s : List Char) (h : ∀ c ∈ p, isMeta c = false)
    (hm : mongoRegexExactCI p s = some true) : lowerL s = lowerL p := by
  rw [mongoRegexExactCI, compilePat_noMeta p h, Option.map_some'] at hm
  rw [lowerAtoms_lits] at hm
  exact (atomsMatch_lits (lowerL p) (lowerL s)).mp (Option.some.inj hm)

/-! ### Filter-evaluation lemmas -/

/-- A true `anyM` exhibits a member on which the predicate is true. -/
theorem anyM_true {α : Type} (p : α → Option Bool) (xs : List α)
    (h : anyM p xs = some true) : ∃ x ∈ xs, p x = some true := by
  induction xs with
  | nil => simp [anyM] at h
  | cons x xs ih =>
    rw [anyM] at h
    cases hx : p x with
    | none => simp [hx] at h
    | some b =>
      cases hr : anyM p xs with
      | none => simp [hx, hr] at h
      | some r =>
        simp only [hx, hr, Option.bind_eq_bind, Option.some_bind] at h
        rcases Bool.or_eq_true_iff.mp (Option.some.inj h) with hb | hrr
        · exact ⟨x, List.mem_cons_self x xs, hb ▸ hx⟩
        · obtain ⟨y, hy, hpy⟩ := ih (hrr ▸ hr)
          exact ⟨y, List.mem_cons_of_mem x hy, hpy⟩

/-- A document passing a filter with a non-empty `category` argument
passes the category condition. -/
theorem filterMatches_category_true (cat : String) (q : Option String) (d : Doc)
    (hne : cat.isEmpty = false) (h : filterMatches (some cat) q d = some true) :
    categoryCond cat d = some true := by
  cases hc : categoryCond cat d with
  | none => rw [filterMatches] at h; simp [hne, hc] at h
  | some c =>
    cases c with
    | true => rfl
    | false =>
      rw [filterMatches] at h
      simp only [hne, Bool.false_eq_true, if_false, hc, Option.bind_eq_bind,
        Option.some_bind, Bool.false_and] at h
      cases q with
      | none => simp at h
      | some qs =>
        by_cases hqe : qs.isEmpty
        · simp [hqe] at h
        · cases hq2 : queryCond qs d with
          | none => simp [hqe, hq2] at h
          | some b2 => simp [hqe, hq2] at h

/-- A document passing a filter with a non-empty `q` argument passes the
query condition. -/
theorem filterMatches_query_true (category : Option String) (q : String) (d : Doc)
    (hne : q.isEmpty = false) (h : filterMatches category (some q) d = some true) :
    queryCond q d = some true := by
  cases hq : queryCond q d with
  | none =>
    cases category with
    | none => rw [filterMatches] at h; simp [hne, hq] at h
    | some cat =>
      rw [filterMatches] at h
      by_cases hce : cat.isEmpty
      · simp [hne, hce, hq] at h
      · cases hcc : categoryCond cat d with
        | none => simp [hne, hce, hcc] at h
        | some c => simp [hne, hce, hcc, hq] at h
  | some c =>
    cases c with
    | true => rfl
    | false =>
      cases category with
      | none => rw [filterMatches] at h; simp [hne, hq] at h
      | some cat =>
        rw [filterMatches] at h
        by_cases hce : cat.isEmpty
        · simp [hne, hce, hq] at h
        · cases hcc : categoryCond cat d with
          | none => simp [hne, hce, hcc] at h
          | some c2 => simp [hne, hce, hcc, hq] at h

/-- A true query condition comes from a true search on `name`,
`description`, or some element of a present `tags` array. -/
theorem queryCond_true_cases (q : String) (d : Doc)
    (h : queryCond q d = some true) :
    mongoRegexSearchCI q.data d.name.data = some true ∨
    mongoRegexSearchCI q.data d.description.data = some true ∨
    ∃ ts, d.tags = some ts ∧ ∃ x ∈ ts, mongoRegexSearchCI q.data x.data = some true := by
  rw [queryCond] at h
  cases hn : mongoRegexSearchCI q.data d.name.data with
  | none => simp [hn] at h
  | some n =>
    cases hd : mongoRegexSearchCI q.data d.description.data with
    | none => simp [hn, hd] at h
    | some de =>
      cases n with
      | true => exact Or.inl rfl
      | false =>
        cases de with
        | true => exact Or.inr (Or.inl rfl)
        | false =>
          right; right
          cases htags : d.tags with
          | none => simp [hn, hd, htags] at h
          | some ts =>
            cases ht : anyM (fun s => mongoRegexSearchCI q.data s.data) ts with
            | none => simp [hn, hd, htags, ht] at h
            | some t =>
              simp only [hn, hd, htags, ht, Option.bind_eq_bind, Option.some_bind,
                Bool.false_or] at h
              obtain ⟨x, hx, hpx⟩ := anyM_true _ ts (Option.some.inj h ▸ ht)
              exact ⟨ts, rfl, x, hx, hpx⟩

/-- Every document kept by `findFiltered` is in the collection and passes
the filter. -/
theorem findFiltered_mem (category q : Option String) (docs kept : List Doc)
    (h : findFiltered category q docs = some kept) (d : Doc) (hd : d ∈ kept) :
    d ∈ docs ∧ filterMatches category q d = some true := by
  induction docs generalizing kept with
  | nil =>
    rw [findFiltered] at h
    rw [← Option.some.inj h] at hd
    exact absurd hd (List.not_mem_nil d)
  | cons x xs ih =>
    rw [findFiltered] at h
    cases hx : filterMatches category q x with
    | none => simp [hx] at h
    | some b =>
      cases hr : findFiltered category q xs with
      | none => simp [hx, hr] at h
      | some rest =>
        simp only [hx, hr, Option.bind_eq_bind, Option.some_bind] at h
        have hkept := Option.some.inj h
        cases b with
        | true =>
          rw [← hkept] at hd
          rcases List.mem_cons.mp hd with he | hrest
          · subst he
            exact ⟨List.mem_cons_self d xs, hx⟩
          · obtain ⟨h1, h2⟩ := ih rest hr hrest
            exact ⟨List.mem_cons_of_mem x h1, h2⟩
        | false =>
          rw [← hkept] at hd
          obtain ⟨h1, h2⟩ := ih rest hr hd
          exact ⟨List.mem_cons_of_mem x h1, h2⟩

/-- A string with a non-empty character list is not `isEmpty`. -/
theorem isEmpty_false_of_data_ne (s : String) (h : s.data ≠ []) :
    s.isEmpty = false := by
  cases he : s.isEmpty
  · rfl
  · exact absurd (congrArg String.data ((String.isEmpty_iff s).mp he)) h

/-- Seeding an available store yields an available store. -/
theorem ensure_seed_data_some (insertOk : Bool) (g : Nat) (docs : List Doc) :
    ∃ g₂ docs₂, ensure_seed_data insertOk g (some docs) = (g₂, some docs₂) := by
  rw [ensure_seed_data, ensure_seed_attempt]
  by_cases h0 : countAll docs = 0
  · cases insertOk with
    | true => exact ⟨g + 3, docs ++ seedDocs g, by simp [h0]⟩
    | false => exact ⟨g, docs, by simp [h0]⟩
  · exact ⟨g, docs, by simp [h0]⟩

/-- What a successful available-store `list_products` run returns: the
serialization of the first 48 documents kept by the filter over the
post-seeding collection. -/
theorem list_products_avail_spec (category q : Option String) (insertOk : Bool)
    (g : Nat) (docs : List Doc) (g' : Nat) (st' : Store) (views : List ProductOut)
    (h : list_products category q insertOk g (some docs) = some (g', st', views)) :
    ∃ docs₂ kept, findFiltered category q docs₂ = some kept ∧
      views = (kept.take 48).map serialize_product := by
  obtain ⟨g₂, docs₂, he⟩ := ensure_seed_data_some insertOk g docs
  rw [list_products] at h
  rw [he] at h
  obtain ⟨kept, hk, heq⟩ := Option.map_eq_some'.mp h
  simp only [Prod.mk.injEq] at heq
  exact ⟨docs₂, kept, hk, heq.2.2.symm⟩

/-- Every view of a successful available-store `list_products` run is the
serialization of a document passing the filter. -/
theorem list_products_avail_mem (category q : Option String) (insertOk : Bool)
    (g : Nat) (docs : List Doc) (g' : Nat) (st' : Store) (views : List ProductOut)
    (h : list_products category q insertOk g (some docs) = some (g', st', views))
    (v : ProductOut) (hv : v ∈ views) :
    ∃ d, filterMatches category q d = some true ∧ v = serialize_product d := by
  obtain ⟨docs₂, kept, hk, hviews⟩ :=
    list_products_avail_spec category q insertOk g docs g' st' views h
  rw [hviews] at hv
  obtain ⟨d, hd, rfl⟩ := List.mem_map.mp hv
  have hdk : d ∈ kept := List.take_subset 48 kept hd
  exact ⟨d, (findFiltered_mem category q docs₂ kept hk d hdk).2, rfl⟩

/-! ### Claims -/

/-- C1: the claim states that a raw record lacking `sizes`, `images`,
`stock` and `tags` serializes to `sizes = [XS,S,M,L,XL,XXL]`,
`images = []`, `stock = 0`, `tags = []`.  The code disagrees on `sizes`:
`serialize_product` reads `doc.get("sizes", [])` (line 55), so a missing
`sizes` serializes to `[]`, not to the six-value run that `ProductModel`
itself declares as the field's default (line 29) and that the spec
states.  This theorem evaluates the serializer on such a record: the
three other defaults match the claim, `sizes` does not. -/
theorem C1_serialize_missing_fields :
    (serialize_product bareDoc).sizes = [] ∧
    (serialize_product bareDoc).sizes ≠ sixSizes ∧
    (serialize_product bareDoc).images = [] ∧
    (serialize_product bareDoc).stock = 0 ∧
    (serialize_product bareDoc).tags = [] := by
  decide

/-- C2: the claim states that against an available store a malformed id
yields 400, a well-formed absent id yields 404, and a found record is
returned serialized.  The code satisfies the first and third parts but
not the second: the `raise HTTPException(status_code=404)` at line 221
sits inside the `try` block whose `except Exception` handler (line 223)
catches `HTTPException` too and replaces it with the 400
`"Invalid product id"`.  This theorem evaluates the three cases on a
store holding one document with ObjectId 5: the id
`"00...02"` is well-formed (it parses) and absent (no document has
ObjectId 2), yet the result is the 400 error, not a 404. -/
theorem C2_get_product_behaviour :
    get_product "zzz" 0 (some [exDoc]) =
      (0, .error (400, "Invalid product id")) ∧
    objectIdOfString "000000000000000000000002" = some 2 ∧
    find_one [exDoc] 2 = none ∧
    get_product "000000000000000000000002" 0 (some [exDoc]) =
      (0, .error (400, "Invalid product id")) ∧
    get_product "000000000000000000000005" 0 (some [exDoc]) =
      (0, .ok (serialize_product exDoc)) := by
  decide

/-- C3: when the store is unavailable, `list_products` returns exactly one
element — the serialized fallback record — and the result is literally the
same term for every `category` and `q` argument, so the filters have no
effect in degraded mode. -/
theorem C3_degraded_list_ignores_filters (category q : Option String)
    (insertOk : Bool) (g : Nat) :
    list_products category q insertOk g none =
      some (g + 1, none, [serialize_product (fallbackDoc g)]) := rfl

/-- C4: for every well-formed `category` argument (non-empty,
metacharacter-free), every view returned by an available-store
`list_products` run has a `category` field equal to the argument up to
case. -/
theorem C4_category_exact_ci (cat : String) (q : Option String)
    (insertOk : Bool) (g : Nat) (docs : List Doc) (g' : Nat) (st' : Store)
    (views : List ProductOut)
    (hwf : wellFormedCategory cat)
    (hrun : list_products (some cat) q insertOk g (some docs) =
      some (g', st', views)) :
    ∀ v ∈ views, lowerL v.category.data = lowerL cat.data := by
  intro v hv
  obtain ⟨d, hf, rfl⟩ :=
    list_products_avail_mem (some cat) q insertOk g docs g' st' views hrun v hv
  have hne := isEmpty_false_of_data_ne cat hwf.1
  have hcc := filterMatches_category_true cat q d hne hf
  exact mongoExactCI_true cat.data d.category.data hwf.2 hcc

/-- Witness for C4 at `category = "men"` against a store holding a
document whose stored category is `"Men"`. -/
theorem C4_category_exact_ci_witness :
    lowerL (serialize_product exDoc).category.data = lowerL "men".data :=
  C4_category_exact_ci "men" none true 0 [exDoc] 0 (some [exDoc])
    [serialize_product exDoc] (by decide) (by decide)
    (serialize_product exDoc) (by decide)

/-- C5 as stated is false: it quantifies over *every* query string, but
the query is interpolated unescaped into a `$regex` pattern, so a
metacharacter query matches without being a substring.  Concretely,
`q = "."` matches the document named `"ab"` (PCRE `.` matches any
character), and `list_products` returns that document, yet `"."` is not a
case-insensitive substring of its name `"ab"`, its description `"cd"`, or
any of its (zero) tags. -/
theorem C5_counterexample :
    list_products none (some ".") true 0 (some [exDoc]) =
      some (0, some [exDoc], [serialize_product exDoc]) ∧
    ¬ (lowerL ".".data <:+: lowerL (serialize_product exDoc).name.data ∨
       lowerL ".".data <:+: lowerL (serialize_product exDoc).description.data ∨
       ∃ t ∈ (serialize_product exDoc).tags,
         lowerL ".".data <:+: lowerL t.data) := by
  decide

/-- C5 amended: for every query string *free of PCRE metacharacters*,
every view returned by an available-store `list_products` run contains
the query as a case-insensitive substring of its name, its description,
or some element of its tags. -/
theorem C5_query_substring_amended (category : Option String) (q : String)
    (insertOk : Bool) (g : Nat) (docs : List Doc) (g' : Nat) (st' : Store)
    (views : List ProductOut)
    (hq : ∀ c ∈ q.data, isMeta c = false)
    (hrun : list_products category (some q) insertOk g (some docs) =
      some (g', st', views)) :
    ∀ v ∈ views, lowerL q.data <:+: lowerL v.name.data ∨
      lowerL q.data <:+: lowerL v.description.data ∨
      ∃ t ∈ v.tags, lowerL q.data <:+: lowerL t.data := by
  intro v hv
  obtain ⟨d, hf, rfl⟩ :=
    list_products_avail_mem category (some q) insertOk g docs g' st' views hrun v hv
  by_cases hqe : q.isEmpty
  · left
    have hdat : q.data = [] := congrArg String.data ((String.isEmpty_iff q).mp hqe)
    rw [hdat]
    simp only [lowerL, List.map_nil]
    exact List.nil_infix
  · have hqe' : q.isEmpty = false := Bool.eq_false_iff.mpr hqe
    have hqc := filterMatches_query_true category q d hqe' hf
    rcases queryCond_true_cases q d hqc with hn | hd2 | ⟨ts, hts, x, hx, hpx⟩
    · exact Or.inl (mongoSearchCI_true q.data d.name.data hq hn)
    · exact Or.inr (Or.inl (mongoSearchCI_true q.data d.description.data hq hd2))
    · refine Or.inr (Or.inr ⟨x, ?_, mongoSearchCI_true q.data x.data hq hpx⟩)
      show x ∈ d.tags.getD []
      rw [hts]
      exact hx

/-- Witness for the amended C5 at `q = "B"` against a store holding a
document named `"ab"`. -/
theorem C5_query_substring_amended_witness :
    lowerL "B".data <:+: lowerL (serialize_product exDoc).name.data ∨
    lowerL "B".data <:+: lowerL (serialize_product exDoc).description.data ∨
    ∃ t ∈ (serialize_product exDoc).tags, lowerL "B".data <:+: lowerL t.data :=
  C5_query_substring_amended none "B" true 0 [exDoc] 0 (some [exDoc])
    [serialize_product exDoc] (by decide) (by decide)
    (serialize_product exDoc) (by decide)

/-- C9: for every store state and every combination of `category` and `q`
arguments, a `list_products` response holds at most 48 elements: the
available branch applies `.limit(48)` to the query, the degraded branch
returns a single fallback element. -/
theorem C9_limit_48 (category q : Option String) (insertOk : Bool) (g : Nat)
    (st : Store) (g' : Nat) (st' : Store) (views : List ProductOut)
    (hrun : list_products category q insertOk g st = some (g', st', views)) :
    views.length ≤ 48 := by
  cases st with
  | none =>
    have he : list_products category q insertOk g none =
        some (g + 1, none, [serialize_product (fallbackDoc g)]) := rfl
    rw [he, Option.some.injEq, Prod.mk.injEq, Prod.mk.injEq] at hrun
    rw [← hrun.2.2, List.length_singleton]
    omega
  | some docs =>
    obtain ⟨docs₂, kept, _, hviews⟩ :=
      list_products_avail_spec category q insertOk g docs g' st' views hrun
    rw [hviews, List.length_map, List.length_take]
    exact min_le_left 48 kept.length

/-- Witness for C9 on a one-document store. -/
theorem C9_limit_48_witness : [serialize_product exDoc].length ≤ 48 :=
  C9_limit_48 none none true 0 (some [exDoc]) 0 (some [exDoc])
    [serialize_product exDoc] (by decide)

/-- C6: `ensure_seed_data` is idempotent on an available, non-empty
(already-seeded) store: both sequential calls are no-ops — the collection,
and hence `countAll`, is unchanged and nothing is inserted. -/
theorem C6_ensure_seed_idempotent (insertOk insertOk' : Bool) (g : Nat)
    (docs : List Doc) (h : docs ≠ []) :
    ensure_seed_data insertOk' (ensure_seed_data insertOk g (some docs)).1
      (ensure_seed_data insertOk g (some docs)).2 = (g, some docs) ∧
    countAll docs = countAll docs := by
  have h0 : countAll docs ≠ 0 := by
    simpa [countAll, List.length_eq_zero] using h
  have h1 : ∀ iOk, ensure_seed_data iOk g (some docs) = (g, some docs) := by
    intro iOk
    rw [ensure_seed_data, ensure_seed_attempt]
    simp [h0]
  rw [h1 insertOk]
  exact ⟨h1 insertOk', rfl⟩

/-- Witness for C6 on a one-document store. -/
theorem C6_ensure_seed_idempotent_witness :
    ensure_seed_data true (ensure_seed_data true 0 (some [exDoc])).1
      (ensure_seed_data true 0 (some [exDoc])).2 = (0, some [exDoc]) ∧
    countAll [exDoc] = countAll [exDoc] :=
  C6_ensure_seed_idempotent true true 0 [exDoc] (by decide)

/-- C7: on an available empty store, one (successful) call to
`ensure_seed_data` inserts exactly the three-record seed set in a single
batch, after which `countAll` is 3. -/
theorem C7_seed_three (g : Nat) :
    ensure_seed_data true g (some []) = (g + 3, some (seedDocs g)) ∧
    countAll (seedDocs g) = 3 := by
  constructor
  · rw [ensure_seed_data, ensure_seed_attempt]
    simp [countAll]
  · rfl

/-- C8: `ensure_seed_data` never surfaces an error: on an unavailable
store it returns normally as a silent no-op; when the seed insert fails,
the failure is swallowed (`except Exception: pass`) and the store is left
unchanged, so the still-empty collection is seeded again by the next
successful call. -/
theorem C8_seed_errors_swallowed (insertOk : Bool) (g g₂ : Nat) (st : Store) :
    ensure_seed_data insertOk g none = (g, none) ∧
    ensure_seed_data false g st = (g, st) ∧
    ensure_seed_data true g₂ (ensure_seed_data false g (some [])).2 =
      (g₂ + 3, some (seedDocs g₂)) := by
  refine ⟨rfl, ?_, ?_⟩
  · cases st with
    | none => rfl
    | some docs =>
      rw [ensure_seed_data, ensure_seed_attempt]
      by_cases h0 : countAll docs = 0 <;> simp [h0]
  · have hfail : (ensure_seed_data false g (some [])).2 = some [] := by
      rw [ensure_seed_data, ensure_seed_attempt]
      simp [countAll]
    rw [hfail, ensure_seed_data, ensure_seed_attempt]
    simp [countAll]

/-- C10: in degraded mode, the view returned by `get_product` (for any
id argument) and the single view returned by `list_products` (for any
filter arguments) agree on every field except `id`; the `id` is a freshly
generated ObjectId — modelled by the per-call counter the bson driver
increments on every generation — so two degraded-mode calls (distinct
counter states) return different `id` values. -/
theorem C10_degraded_agreement (pid : String) (category q : Option String)
    (insertOk : Bool) (g g' : Nat) (hne : g ≠ g') :
    get_product pid g none = (g + 1, .ok (getProductFallback g)) ∧
    list_products category q insertOk g' none =
      some (g' + 1, none, [serialize_product (fallbackDoc g')]) ∧
    sansId (getProductFallback g) = sansId (serialize_product (fallbackDoc g')) ∧
    (getProductFallback g).id ≠ (serialize_product (fallbackDoc g')).id := by
  exact ⟨rfl, rfl, rfl, hne⟩

/-- Witness for C10 at counter states 0 and 1. -/
theorem C10_degraded_agreement_witness :
    get_product "x" 0 none = (1, .ok (getProductFallback 0)) ∧
    list_products none none true 1 none =
      some (2, none, [serialize_product (fallbackDoc 1)]) ∧
    sansId (getProductFallback 0) = sansId (serialize_product (fallbackDoc 1)) ∧
    (getProductFallback 0).id ≠ (serialize_product (fallbackDoc 1)).id :=
  C10_degraded_agreement "x" none none true 0 1 (by decide)

end CtrlZ
